import Mathlib

/-!
Verification development for the repository discovery / dedup / fanout bot.

The definitions below are a shallow embedding of the JavaScript sources:
functions from src/main.js (getPostedRepos, savePostedRepo, filterNewRepos,
searchRepos query construction, postToAllGroups) and src/scheduler.js
(BotScheduler).  External effects are made explicit: the ledger file is a
value of type LedgerFile, the chat transport is a function telling which
sends succeed, search results are given by a function per tier, and the
timer runtime is a TimerSystem value.
-/

/-- Repository item as returned by the external search capability. -/
structure Repo where
  id : Nat
  full_name : String
  html_url : String
  description : String
  stargazers_count : Nat
deriving DecidableEq

/-- Record kept in posted-repos.json, built by savePostedRepo. -/
structure PostedRepo where
  id : Nat
  full_name : String
  html_url : String
  posted_at : Nat
  stars : Nat
deriving DecidableEq

/-- The repoData object that savePostedRepo builds from a repo at time now. -/
def toRecord (now : Nat) (repo : Repo) : PostedRepo :=
  { id := repo.id
    full_name := repo.full_name
    html_url := repo.html_url
    posted_at := now
    stars := repo.stargazers_count }

/-- State of the posted-repos.json backing store: absent, unreadable or
unparsable (JSON.parse throws), or readable with a list of records. -/
inductive LedgerFile where
  | missing : LedgerFile
  | corrupt : LedgerFile
  | ok : List PostedRepo → LedgerFile
deriving DecidableEq

/-- getPostedRepos from src/main.js: returns the stored list; a missing file
or a read/parse failure is caught and yields the empty list. -/
def getPostedRepos : LedgerFile → List PostedRepo
  | LedgerFile.missing => []
  | LedgerFile.corrupt => []
  | LedgerFile.ok rs => rs

/-- Membership of an identity in a ledger list, as tested by the postedIds
set in filterNewRepos and by the find in savePostedRepo. -/
def isPostedIn (postedRepos : List PostedRepo) (i : Nat) : Bool :=
  postedRepos.any (fun r => r.id == i)

/-- The spec contract isPosted(identity): reads the backing store and tests
membership of the identity. -/
def isPosted (file : LedgerFile) (i : Nat) : Bool :=
  isPostedIn (getPostedRepos file) i

/-- In-memory core of savePostedRepo acting on the list of records: insert
unless the identity is already present, then keep only the last 1000
records (the splice drops from the front, i.e. the oldest). -/
def recordList (now : Nat) (postedRepos : List PostedRepo) (repo : Repo) :
    List PostedRepo :=
  if isPostedIn postedRepos repo.id then postedRepos
  else
    let pushed := postedRepos ++ [toRecord now repo]
    if 1000 < pushed.length then pushed.drop (pushed.length - 1000) else pushed

/-- savePostedRepo from src/main.js.  Reads the store, inserts unless the
identity is a duplicate, truncates to the last 1000 records, and writes the
result back.  The writeOk flag tells whether the write succeeds; a failed
write is caught, so the function also returns whether an error was
reported (true exactly when the write was attempted and failed). -/
def savePostedRepo (now : Nat) (writeOk : Bool) (file : LedgerFile)
    (repo : Repo) : LedgerFile × Bool :=
  let postedRepos := getPostedRepos file
  if isPostedIn postedRepos repo.id then (file, false)
  else
    let pushed := postedRepos ++ [toRecord now repo]
    let newList :=
      if 1000 < pushed.length then pushed.drop (pushed.length - 1000) else pushed
    if writeOk then (LedgerFile.ok newList, false) else (file, true)

/-- filterNewRepos from src/main.js: reads the store and keeps the repos
whose id is not among the recorded ids, preserving input order. -/
def filterNewRepos (file : LedgerFile) (repos : List Repo) : List Repo :=
  let postedRepos := getPostedRepos file
  repos.filter (fun repo => !(isPostedIn postedRepos repo.id))

/-- Number of records with a given identity in a ledger list. -/
def countId (postedRepos : List PostedRepo) (i : Nat) : Nat :=
  (postedRepos.filter (fun r => r.id == i)).length

/-- The three search tiers of searchRepos. -/
inductive SearchType where
  | new : SearchType
  | trending : SearchType
  | popular : SearchType
deriving DecidableEq

/-- Structured form of the search request that searchRepos sends to the
provider: query facets, sort key, order and page size. -/
structure RepoQuery where
  keyword : String
  createdAfter : Option Nat
  pushedAfter : Option Nat
  minStars : ℚ
  sort : String
  order : String
  perPage : Nat
deriving DecidableEq

/-- The customResultsCount or RESULTS_PER_KEYWORD choice of searchRepos;
a missing or zero custom count falls back to the configured default. -/
def effectiveResultsCount (customResultsCount : Option Nat)
    (resultsPerKeyword : Nat) : Nat :=
  match customResultsCount with
  | some n => if n == 0 then resultsPerKeyword else n
  | none => resultsPerKeyword

/-- Query construction of searchRepos from src/main.js.  Dates are days
since epoch; today stands for the current date.  The new tier filters on
created within 7 days and stars at least max(10, threshold / 10); the
trending tier on pushed within 30 days and stars at least the threshold;
the popular tier has no date facet and sorts by stars.  The page size is
the result count capped at the provider maximum of 100. -/
def buildQuery (today : Nat) (starThreshold : ℚ) (resultsPerKeyword : Nat)
    (customResultsCount : Option Nat) (keyword : String)
    (searchType : SearchType) : RepoQuery :=
  let resultsCount := effectiveResultsCount customResultsCount resultsPerKeyword
  match searchType with
  | SearchType.new =>
      { keyword := keyword
        createdAfter := some (today - 7)
        pushedAfter := none
        minStars := max 10 (starThreshold / 10)
        sort := "created"
        order := "desc"
        perPage := min resultsCount 100 }
  | SearchType.trending =>
      { keyword := keyword
        createdAfter := none
        pushedAfter := some (today - 30)
        minStars := starThreshold
        sort := "updated"
        order := "desc"
        perPage := min resultsCount 100 }
  | SearchType.popular =>
      { keyword := keyword
        createdAfter := none
        pushedAfter := none
        minStars := starThreshold
        sort := "stars"
        order := "desc"
        perPage := min resultsCount 100 }

/-- Tiered discovery for one keyword, the per-keyword block of the loop in
postToAllGroups: search the new tier and dedup; if empty, search the
trending tier and dedup; if still empty, search the popular tier and
dedup.  The search argument gives the (already caught, possibly empty)
provider results per tier.  Also returns the list of tiers whose search
was invoked, in invocation order. -/
def discoverT (search : SearchType → List Repo) (file : LedgerFile) :
    List Repo × List SearchType :=
  let filteredNewRepos := filterNewRepos file (search SearchType.new)
  if filteredNewRepos.isEmpty then
    let filteredTrending := filterNewRepos file (search SearchType.trending)
    if filteredTrending.isEmpty then
      (filterNewRepos file (search SearchType.popular),
        [SearchType.new, SearchType.trending, SearchType.popular])
    else (filteredTrending, [SearchType.new, SearchType.trending])
  else (filteredNewRepos, [SearchType.new])

/-- The fixed keyword list of src/main.js. -/
def KEYWORDS : List String :=
  ["AI", "chat bot", "web3", "trading", "finance tracking"]

/-- State of the groups.json cache file: absent, unparsable (JSON.parse
throws), or readable with a list of group identifiers. -/
inductive GroupsFile where
  | missing : GroupsFile
  | corrupt : GroupsFile
  | ok : List String → GroupsFile
deriving DecidableEq

/-- Explicit environment for one run of postToAllGroups: the persisted
selection read by the group manager, the SELECTED_GROUPS configuration,
the groups.json cache, the transport fetch of participating groups (none
when the fetch throws), whether the groups.json write succeeds, the
per-keyword per-tier search results (already caught, so plain lists),
which groups the transport delivers to (false means sendMessage throws),
whether ledger writes succeed, the initial ledger file and the clock. -/
structure Env where
  managerSelected : List String
  envSelected : List String
  groupsFile : GroupsFile
  fetched : Option (List String)
  groupsWriteOk : Bool
  search : String → SearchType → List Repo
  sendOk : String → Bool
  writeOk : Bool
  ledgerFile : LedgerFile
  now : Nat

/-- saveGroups from src/main.js: fetch all participating groups and write
them to groups.json; a fetch or write failure is caught and yields the
empty list, leaving the file unchanged. -/
def saveGroupsOp (env : Env) : List String × GroupsFile :=
  match env.fetched with
  | some ids => if env.groupsWriteOk then (ids, GroupsFile.ok ids) else ([], env.groupsFile)
  | none => ([], env.groupsFile)

/-- Group resolution of postToAllGroups when no explicit override applies:
persisted selection, then configured list, then the groups.json cache if
the file exists (an unparsable file makes JSON.parse throw, which escapes
to the top-level catch of postToAllGroups), else fetch and cache. -/
def resolveFromState (env : Env) : Except String (List String × GroupsFile) :=
  if 0 < env.managerSelected.length then
    Except.ok (env.managerSelected, env.groupsFile)
  else if 0 < env.envSelected.length then
    Except.ok (env.envSelected, env.groupsFile)
  else
    match env.groupsFile with
    | GroupsFile.ok gs => Except.ok (gs, env.groupsFile)
    | GroupsFile.corrupt => Except.error "groups.json: JSON.parse failed"
    | GroupsFile.missing => Except.ok (saveGroupsOp env)

/-- Full group-target resolution of postToAllGroups: a supplied non-empty
override wins, otherwise resolution falls through the persisted, then
configured, then cached or fetched sources.  Returns the resolved group
ids together with the groups.json file after resolution. -/
def resolveGroupIds (env : Env) (override : Option (List String)) :
    Except String (List String × GroupsFile) :=
  match override with
  | some ids => if 0 < ids.length then Except.ok (ids, env.groupsFile) else resolveFromState env
  | none => resolveFromState env

/-- Per-group keyword loop of postToAllGroups: for each keyword run tiered
discovery against the current ledger file; when the result is non-empty,
attempt delivery to the group.  A throwing sendMessage aborts the rest of
the keyword loop for this group (the per-group catch takes over); a
successful delivery records every posted repo.  Returns whether the group
body completed without a transport error, the ledger file afterwards, and
the group ids of the attempted sendMessage calls in order. -/
def postKeywords (env : Env) (groupId : String) :
    List String → LedgerFile → Bool × LedgerFile × List String
  | [], file => (true, file, [])
  | keyword :: rest, file =>
    let reposToPost := (discoverT (env.search keyword) file).1
    if reposToPost.isEmpty then postKeywords env groupId rest file
    else if env.sendOk groupId then
      let file1 := reposToPost.foldl
        (fun acc repo => (savePostedRepo env.now env.writeOk acc repo).1) file
      let r := postKeywords env groupId rest file1
      (r.1, r.2.1, groupId :: r.2.2)
    else (false, file, [groupId])

/-- Group loop of postToAllGroups: run the keyword loop for every group,
counting a success when the group body completes and an error when a
delivery throws, and never aborting the loop.  Returns success count,
error count, final ledger file and the trace of attempted sends. -/
def broadcastLoop (env : Env) :
    List String → LedgerFile → Nat × Nat × LedgerFile × List String
  | [], file => (0, 0, file, [])
  | groupId :: rest, file =>
    let r := postKeywords env groupId KEYWORDS file
    let t := broadcastLoop env rest r.2.1
    if r.1 then (t.1 + 1, t.2.1, t.2.2.1, r.2.2 ++ t.2.2.2)
    else (t.1, t.2.1 + 1, t.2.2.1, r.2.2 ++ t.2.2.2)

/-- Body of postToAllGroups inside its top-level try: resolve the target
groups (this can throw on an unparsable groups.json), return immediately
when no group was found, otherwise run the group loop. -/
def postBodyE (env : Env) (override : Option (List String)) :
    Except String (Nat × Nat × LedgerFile × List String) := do
  let resolved ← resolveGroupIds env override
  if resolved.1.length = 0 then
    return (0, 0, env.ledgerFile, [])
  else
    return broadcastLoop env resolved.1 env.ledgerFile

/-- postToAllGroups from src/main.js: the whole body runs inside a
try/catch whose catch only logs, so the call always returns normally. -/
def postToAllGroupsCaught (env : Env) (override : Option (List String)) :
    Except String Unit :=
  match postBodyE env override with
  | Except.ok _ => Except.ok ()
  | Except.error _ => Except.ok ()

/-- triggerManualPost from src/scheduler.js: false when no client is set,
otherwise true unless the awaited postToAllGroups throws. -/
def triggerManualPost (clientSet : Bool) (env : Env)
    (override : Option (List String)) : Bool :=
  if clientSet = false then false
  else
    match postToAllGroupsCaught env override with
    | Except.ok _ => true
    | Except.error _ => false

/-- The timer runtime: pending wake-up identifiers in creation order and
the next fresh identifier. -/
structure TimerSystem where
  pending : List Nat
  nextId : Nat
deriving DecidableEq

/-- Initial timer runtime with no pending wake-up. -/
def timerInit : TimerSystem := { pending := [], nextId := 0 }

/-- setTimeout: registers a fresh pending wake-up and returns its id. -/
def setTimeoutSys (ts : TimerSystem) : Nat × TimerSystem :=
  (ts.nextId, { pending := ts.pending ++ [ts.nextId], nextId := ts.nextId + 1 })

/-- clearTimeout: removes the wake-up with the given id, if pending. -/
def clearTimeoutSys (ts : TimerSystem) (i : Nat) : TimerSystem :=
  { ts with pending := ts.pending.filter (fun j => !(j == i)) }

/-- BotScheduler state from src/scheduler.js (the configuration numbers do
not affect the wake-up bookkeeping and are omitted). -/
structure Scheduler where
  autoPostEnabled : Bool
  clientSet : Bool
  isRunning : Bool
  timeoutId : Option Nat
  intervalId : Option Nat
deriving DecidableEq

/-- BotScheduler constructor: client unset, not running, no handles. -/
def schedulerInit (enabled : Bool) : Scheduler :=
  { autoPostEnabled := enabled
    clientSet := false
    isRunning := false
    timeoutId := none
    intervalId := none }

/-- scheduleNextPost: arm a single wake-up and remember its handle. -/
def scheduleNextPost (s : Scheduler) (ts : TimerSystem) :
    Scheduler × TimerSystem :=
  let r := setTimeoutSys ts
  ({ s with timeoutId := some r.1 }, r.2)

/-- start: no-op without a client, no-op when auto-posting is disabled,
no-op when already running; otherwise mark running and arm the first
wake-up. -/
def schedStart (s : Scheduler) (ts : TimerSystem) : Scheduler × TimerSystem :=
  if s.clientSet = false then (s, ts)
  else if s.autoPostEnabled = false then (s, ts)
  else if s.isRunning = true then (s, ts)
  else scheduleNextPost { s with isRunning := true } ts

/-- stop: clear the interval handle if set, clear the pending wake-up if
set, and leave the running state. -/
def schedStop (s : Scheduler) (ts : TimerSystem) : Scheduler × TimerSystem :=
  let ts1 :=
    match s.intervalId with
    | some i => clearTimeoutSys ts i
    | none => ts
  let ts2 :=
    match s.timeoutId with
    | some i => clearTimeoutSys ts1 i
    | none => ts1
  ({ s with isRunning := false, timeoutId := none, intervalId := none }, ts2)

/-- A pending wake-up elapses: the runtime removes it and runs the
callback of scheduleNextPost, which executes the post (its errors are
caught inside executePost) and re-arms exactly when still running. -/
def schedFire (s : Scheduler) (ts : TimerSystem) : Scheduler × TimerSystem :=
  match ts.pending with
  | [] => (s, ts)
  | _ :: rest =>
    let ts1 : TimerSystem := { ts with pending := rest }
    if s.isRunning = true then scheduleNextPost s ts1 else (s, ts1)

/-- Events driving the scheduler state machine. -/
inductive SchedEvent where
  | setClient : SchedEvent
  | start : SchedEvent
  | stop : SchedEvent
  | fire : SchedEvent
deriving DecidableEq

/-- One scheduler transition. -/
def schedStep (p : Scheduler × TimerSystem) (e : SchedEvent) :
    Scheduler × TimerSystem :=
  match e with
  | SchedEvent.setClient => ({ p.1 with clientSet := true }, p.2)
  | SchedEvent.start => schedStart p.1 p.2
  | SchedEvent.stop => schedStop p.1 p.2
  | SchedEvent.fire => schedFire p.1 p.2

/-- Invariant of reachable scheduler states: the interval handle is never
used, a running scheduler has exactly the wake-up named by its stored
handle pending, and an idle scheduler has no pending wake-up. -/
def SchedInv (p : Scheduler × TimerSystem) : Prop :=
  p.1.intervalId = none ∧
  (p.1.isRunning = true →
    ∃ t, p.1.timeoutId = some t ∧ p.2.pending = [t]) ∧
  (p.1.isRunning = false → p.2.pending = [])

/-- Milliseconds in one day. -/
def msPerDay : Nat := 86400000

/-- Milliseconds in one minute. -/
def msPerMinute : Nat := 60000

/-- The setHours(postTimeHour, postTimeMinute, 0, 0) result of
calculateNextPostTime: the configured time-of-day on the current day,
with instants measured in milliseconds. -/
def todayOccurrence (postTimeHour postTimeMinute now : Nat) : Nat :=
  now / msPerDay * msPerDay + (postTimeHour * 60 + postTimeMinute) * msPerMinute

/-- calculateNextPostTime from src/scheduler.js: the configured
time-of-day today, pushed to tomorrow when it is not strictly in the
future. -/
def calculateNextPostTime (postTimeHour postTimeMinute now : Nat) : Nat :=
  let nextPost := todayOccurrence postTimeHour postTimeMinute now
  if nextPost ≤ now then nextPost + msPerDay else nextPost

/-- Sample repository item with identity 1. -/
def repoA : Repo :=
  { id := 1, full_name := "acme/alpha", html_url := "urlA"
    description := "first", stargazers_count := 500 }

/-- Sample repository item with identity 2. -/
def repoB : Repo :=
  { id := 2, full_name := "acme/beta", html_url := "urlB"
    description := "second", stargazers_count := 400 }

/-- Sample repository item with identity 3. -/
def repoC : Repo :=
  { id := 3, full_name := "acme/gamma", html_url := "urlC"
    description := "third", stargazers_count := 900 }

/-- Search results used in the tier-fallthrough scenario: one item per
tier. -/
def searchC1 : SearchType → List Repo
  | SearchType.new => [repoA]
  | SearchType.trending => [repoB]
  | SearchType.popular => [repoC]

/-- Environment for the broadcast-isolation scenario: three groups where
delivery to the second one throws, the keyword AI producing one item per
tier and every other keyword producing nothing. -/
def envC5 : Env :=
  { managerSelected := []
    envSelected := []
    groupsFile := GroupsFile.missing
    fetched := none
    groupsWriteOk := true
    search := fun keyword ty => if keyword == "AI" then searchC1 ty else []
    sendOk := fun groupId => !(groupId == "g2")
    writeOk := true
    ledgerFile := LedgerFile.ok []
    now := 0 }

/-- Environment for the resolver-precedence scenario, parametrised by the
persisted selection, the configured list and the transport fetch result;
no groups.json cache exists and the cache write succeeds. -/
def envC4 (manager envSel fetchedGroups : List String) : Env :=
  { managerSelected := manager
    envSelected := envSel
    groupsFile := GroupsFile.missing
    fetched := some fetchedGroups
    groupsWriteOk := true
    search := fun _ _ => []
    sendOk := fun _ => true
    writeOk := true
    ledgerFile := LedgerFile.missing
    now := 0 }

/-- A full ledger of 1000 records, used to exercise truncation. -/
def bigLedger : List PostedRepo := List.replicate 1000 (toRecord 0 repoA)

/-- Counting records with an identity distributes over append. -/
theorem countId_append (l1 l2 : List PostedRepo) (i : Nat) :
    countId (l1 ++ l2) i = countId l1 i + countId l2 i := by
  simp [countId, List.filter_append]

/-- Dropping a prefix cannot increase the count of an identity. -/
theorem countId_drop_le (k : Nat) (l : List PostedRepo) (i : Nat) :
    countId (l.drop k) i ≤ countId l i :=
  List.Sublist.length_le (List.Sublist.filter _ (List.drop_sublist k l))

/-- An identity absent from the ledger list has count zero. -/
theorem countId_of_not_posted (l : List PostedRepo) (i : Nat)
    (h : isPostedIn l i = false) : countId l i = 0 := by
  simp only [countId, List.length_eq_zero, List.filter_eq_nil_iff]
  intro a ha
  simp only [isPostedIn, List.any_eq_false] at h
  exact h a ha

/-- An identity present in the ledger list has positive count. -/
theorem countId_pos_of_posted (l : List PostedRepo) (i : Nat)
    (h : isPostedIn l i = true) : 1 ≤ countId l i := by
  simp only [isPostedIn, List.any_eq_true] at h
  obtain ⟨a, ha, hpa⟩ := h
  have hmem : a ∈ l.filter (fun r => r.id == i) := List.mem_filter.mpr ⟨ha, hpa⟩
  have := List.length_pos.mpr (List.ne_nil_of_mem hmem)
  simpa [countId] using this

/-- A count of at least one forces membership. -/
theorem posted_of_countId_pos (l : List PostedRepo) (i : Nat)
    (h : 1 ≤ countId l i) : isPostedIn l i = true := by
  simp only [countId] at h
  have hne : l.filter (fun r => r.id == i) ≠ [] := by
    intro hc; rw [hc] at h; simp at h
  obtain ⟨a, ha⟩ := List.exists_mem_of_ne_nil _ hne
  have := List.mem_filter.mp ha
  exact List.any_eq_true.mpr ⟨a, this.1, this.2⟩

/-- The record operation never grows a bounded ledger list past 1000. -/
theorem recordList_length_le (now : Nat) (l : List PostedRepo) (r : Repo)
    (h : l.length ≤ 1000) : (recordList now l r).length ≤ 1000 := by
  unfold recordList
  by_cases hd : isPostedIn l r.id = true
  · simp [hd, h]
  · simp only [Bool.not_eq_true] at hd
    simp only [hd, if_false, Bool.false_eq_true]
    split
    · rw [List.length_drop]; omega
    · simp only [List.length_append, List.length_singleton] at *; omega

/-- Recording an item already present is a no-op. -/
theorem recordList_noop (now : Nat) (l : List PostedRepo) (r : Repo)
    (h : isPostedIn l r.id = true) : recordList now l r = l := by
  simp [recordList, h]

/-- The record built from a repo carries the repo identity. -/
theorem toRecord_id (now : Nat) (r : Repo) : (toRecord now r).id = r.id := rfl

/-- After one record call on a ledger holding the identity at most once,
the identity is held exactly once. -/
theorem countId_recordList (now : Nat) (l : List PostedRepo) (r : Repo)
    (h : countId l r.id ≤ 1) : countId (recordList now l r) r.id = 1 := by
  by_cases hd : isPostedIn l r.id = true
  · rw [recordList_noop now l r hd]
    have := countId_pos_of_posted l r.id hd
    omega
  · simp only [Bool.not_eq_true] at hd
    have hzero : countId l r.id = 0 := countId_of_not_posted l r.id hd
    unfold recordList
    simp only [hd, if_false, Bool.false_eq_true]
    have hone : countId (l ++ [toRecord now r]) r.id = 1 := by
      rw [countId_append, hzero]
      simp [countId, toRecord]
    split
    · rename_i hlen
      simp only [List.length_append, List.length_singleton] at hlen
      have hk : l.length + 1 - 1000 ≤ l.length := by omega
      rw [List.length_append, List.length_singleton,
        List.drop_append_of_le_length hk]
      have hdrop : countId (l.drop (l.length + 1 - 1000)) r.id = 0 := by
        have := countId_drop_le (l.length + 1 - 1000) l r.id
        omega
      rw [countId_append, hdrop]
      simp [countId, toRecord]
    · exact hone

/-- Two record calls on a ledger holding the identity at most once leave
it held exactly once. -/
theorem countId_recordList_twice (now1 now2 : Nat) (l : List PostedRepo)
    (r : Repo) (h : countId l r.id ≤ 1) :
    countId (recordList now2 (recordList now1 l r) r) r.id = 1 := by
  have h1 := countId_recordList now1 l r h
  have h2 : isPostedIn (recordList now1 l r) r.id = true :=
    posted_of_countId_pos _ _ (by omega)
  rw [recordList_noop now2 _ r h2]
  exact h1

/-- A successful savePostedRepo call updates the stored list exactly as
the in-memory record operation does. -/
theorem getPostedRepos_save (now : Nat) (f : LedgerFile) (r : Repo) :
    getPostedRepos ((savePostedRepo now true f r).1) =
      recordList now (getPostedRepos f) r := by
  unfold savePostedRepo recordList
  by_cases hd : isPostedIn (getPostedRepos f) r.id = true
  · simp only [hd, if_true]
  · simp only [Bool.not_eq_true] at hd
    simp only [hd, Bool.false_eq_true, if_false, if_true]
    rfl

/-- C2: after any sequence of record calls starting from a ledger of at
most 1000 records the ledger never holds more than 1000 records, and when
an insert causes truncation the dropped records are exactly the oldest
ones by insertion order: the new content is the suffix of length exactly
1000 of the appended list. -/
theorem ledger_bound_and_truncation :
    (∀ (ops : List (Nat × Repo)) (f : LedgerFile),
        (getPostedRepos f).length ≤ 1000 →
        (getPostedRepos (ops.foldl
          (fun acc p => (savePostedRepo p.1 true acc p.2).1) f)).length ≤ 1000) ∧
    (∀ (now : Nat) (f : LedgerFile) (r : Repo),
        (getPostedRepos f).length ≤ 1000 →
        isPostedIn (getPostedRepos f) r.id = false →
        1000 < (getPostedRepos f ++ [toRecord now r]).length →
        getPostedRepos ((savePostedRepo now true f r).1) =
          (getPostedRepos f ++ [toRecord now r]).drop
            ((getPostedRepos f ++ [toRecord now r]).length - 1000) ∧
        (getPostedRepos ((savePostedRepo now true f r).1)).length = 1000 ∧
        List.IsSuffix (getPostedRepos ((savePostedRepo now true f r).1))
          (getPostedRepos f ++ [toRecord now r])) := by
  constructor
  · intro ops
    induction ops with
    | nil => intro f h; exact h
    | cons op rest ih =>
      intro f h
      simp only [List.foldl_cons]
      apply ih
      rw [getPostedRepos_save]
      exact recordList_length_le op.1 (getPostedRepos f) op.2 h
  · intro now f r hlen hnew hover
    simp only [List.length_append, List.length_singleton] at hover
    have heq : getPostedRepos ((savePostedRepo now true f r).1) =
        (getPostedRepos f ++ [toRecord now r]).drop
          ((getPostedRepos f ++ [toRecord now r]).length - 1000) := by
      rw [getPostedRepos_save]
      unfold recordList
      simp only [hnew, Bool.false_eq_true, if_false]
      rw [if_pos]
      simp only [List.length_append, List.length_singleton]
      omega
    refine ⟨heq, ?_, ?_⟩
    · rw [heq, List.length_drop, List.length_append, List.length_singleton]
      omega
    · rw [heq]
      exact List.drop_suffix _ _

set_option maxRecDepth 8000 in
/-- Witness for the ledger bound and truncation theorem at a concrete
full ledger. -/
theorem ledger_bound_and_truncation_witness :
    ((getPostedRepos (LedgerFile.ok bigLedger)).length ≤ 1000 ∧
      isPostedIn (getPostedRepos (LedgerFile.ok bigLedger)) repoB.id = false ∧
      1000 < (getPostedRepos (LedgerFile.ok bigLedger) ++ [toRecord 0 repoB]).length) ∧
    (getPostedRepos ((savePostedRepo 0 true (LedgerFile.ok bigLedger) repoB).1)).length = 1000 :=
  ⟨⟨by decide, by decide, by decide⟩,
    (ledger_bound_and_truncation.2 0 (LedgerFile.ok bigLedger) repoB
      (by decide) (by decide) (by decide)).2.1⟩

/-- C3: record is idempotent on identity, and filterUnposted never
returns an item whose identity is already recorded. -/
theorem record_idempotent_and_filter :
    (∀ (now1 now2 : Nat) (f : LedgerFile) (r : Repo),
        countId (getPostedRepos f) r.id ≤ 1 →
        countId (getPostedRepos
          ((savePostedRepo now2 true
            ((savePostedRepo now1 true f r).1) r).1)) r.id = 1) ∧
    (∀ (f : LedgerFile) (repos : List Repo) (x : Repo),
        x ∈ filterNewRepos f repos → isPosted f x.id = false) := by
  constructor
  · intro now1 now2 f r h
    rw [getPostedRepos_save, getPostedRepos_save]
    exact countId_recordList_twice now1 now2 (getPostedRepos f) r h
  · intro f repos x hx
    simp only [filterNewRepos, List.mem_filter, Bool.not_eq_true',
      Bool.not_eq_true] at hx
    simpa [isPosted] using hx.2

/-- Witness for idempotent record and the filter contract at concrete
inputs. -/
theorem record_idempotent_and_filter_witness :
    (countId (getPostedRepos (LedgerFile.ok [])) repoA.id ≤ 1 ∧
      countId (getPostedRepos
        ((savePostedRepo 1 true
          ((savePostedRepo 0 true (LedgerFile.ok []) repoA).1) repoA).1)) repoA.id = 1) ∧
    (repoB ∈ filterNewRepos (LedgerFile.ok [toRecord 0 repoA]) [repoB] ∧
      isPosted (LedgerFile.ok [toRecord 0 repoA]) repoB.id = false) :=
  ⟨⟨by decide,
      record_idempotent_and_filter.1 0 1 (LedgerFile.ok []) repoA (by decide)⟩,
    ⟨by decide,
      record_idempotent_and_filter.2 (LedgerFile.ok [toRecord 0 repoA]) [repoB] repoB
        (by decide)⟩⟩

/-- The group loop counts every resolved group exactly once, as a success
or as a failure, whatever the environment does. -/
theorem broadcastLoop_counts (env : Env) (gs : List String) (f : LedgerFile) :
    (broadcastLoop env gs f).1 + (broadcastLoop env gs f).2.1 = gs.length := by
  induction gs generalizing f with
  | nil => simp [broadcastLoop]
  | cons g rest ih =>
    simp only [broadcastLoop]
    cases hr : (postKeywords env g KEYWORDS f).1 <;>
      simp only [hr, Bool.false_eq_true, if_false, if_true, List.length_cons]
    · have := ih ((postKeywords env g KEYWORDS f).2.1)
      omega
    · have := ih ((postKeywords env g KEYWORDS f).2.1)
      omega

/-- C5: a delivery failure in one group never aborts the run, every
resolved group is counted, and in the concrete three-group scenario where
delivery to the second group throws, the run still attempts the third
group and reports 2 successes and 1 failure. -/
theorem broadcast_failure_isolation :
    (∀ (env : Env) (gs : List String) (f : LedgerFile),
        (broadcastLoop env gs f).1 + (broadcastLoop env gs f).2.1 = gs.length) ∧
    ((broadcastLoop envC5 ["g1", "g2", "g3"] envC5.ledgerFile).1 = 2 ∧
      (broadcastLoop envC5 ["g1", "g2", "g3"] envC5.ledgerFile).2.1 = 1 ∧
      (broadcastLoop envC5 ["g1", "g2", "g3"] envC5.ledgerFile).2.2.2 =
        ["g1", "g2", "g3"]) :=
  ⟨broadcastLoop_counts, by decide⟩

/-- C9: persistence failures are non-fatal.  An unreadable or unparsable
ledger file behaves as an empty ledger for isPosted and filterUnposted; a
failed write leaves the store unchanged, reports the error exactly when
an insert was attempted, and the group loop still counts every group. -/
theorem persistence_failures_nonfatal :
    (∀ i, isPosted LedgerFile.corrupt i = false) ∧
    (∀ repos, filterNewRepos LedgerFile.corrupt repos = repos) ∧
    getPostedRepos LedgerFile.corrupt = [] ∧
    (∀ (now : Nat) (f : LedgerFile) (r : Repo),
        (savePostedRepo now false f r).1 = f) ∧
    (∀ (now : Nat) (f : LedgerFile) (r : Repo), isPosted f r.id = false →
        (savePostedRepo now false f r).2 = true) ∧
    (∀ (env : Env) (gs : List String) (f : LedgerFile), env.writeOk = false →
        (broadcastLoop env gs f).1 + (broadcastLoop env gs f).2.1 = gs.length) := by
  refine ⟨?_, ?_, rfl, ?_, ?_, ?_⟩
  · intro i; rfl
  · intro repos
    simp [filterNewRepos, getPostedRepos, isPostedIn]
  · intro now f r
    unfold savePostedRepo
    by_cases hd : isPostedIn (getPostedRepos f) r.id = true
    · simp [hd]
    · simp only [Bool.not_eq_true] at hd
      simp [hd]
  · intro now f r h
    unfold savePostedRepo
    simp only [isPosted] at h
    simp [h]
  · intro env gs f _
    exact broadcastLoop_counts env gs f

/-- Witness for the non-fatal persistence theorem: a failed write on a
fresh item reports the error while leaving the store unchanged, and a run
whose ledger writes all fail still counts its one group. -/
theorem persistence_failures_nonfatal_witness :
    (isPosted (LedgerFile.ok []) repoA.id = false ∧
      (savePostedRepo 0 false (LedgerFile.ok []) repoA).2 = true) ∧
    (({ envC5 with writeOk := false } : Env).writeOk = false ∧
      (broadcastLoop { envC5 with writeOk := false } ["g1"] (LedgerFile.ok [])).1 +
        (broadcastLoop { envC5 with writeOk := false } ["g1"] (LedgerFile.ok [])).2.1 =
          (["g1"] : List String).length) :=
  ⟨⟨by decide,
      persistence_failures_nonfatal.2.2.2.2.1 0 (LedgerFile.ok []) repoA (by decide)⟩,
    ⟨by decide,
      persistence_failures_nonfatal.2.2.2.2.2 { envC5 with writeOk := false }
        ["g1"] (LedgerFile.ok []) (by decide)⟩⟩

/-- C1: discovery tries the tiers in the order new, trending, popular,
stopping at the first tier whose post-dedup result is non-empty.  When
every new-tier result is already recorded and the trending tier has an
unrecorded result, discovery returns exactly the unrecorded results of
the trending tier and the popular tier search is never invoked. -/
theorem tier_fallthrough_order (search : SearchType → List Repo)
    (file : LedgerFile)
    (h1 : ∀ r ∈ search SearchType.new, isPosted file r.id = true)
    (h2 : ∃ r ∈ search SearchType.trending, isPosted file r.id = false) :
    (discoverT search file).1 =
      filterNewRepos file (search SearchType.trending) ∧
    (discoverT search file).1 ≠ [] ∧
    SearchType.popular ∉ (discoverT search file).2 := by
  have hnew : filterNewRepos file (search SearchType.new) = [] := by
    simp only [filterNewRepos, List.filter_eq_nil_iff]
    intro r hr
    have := h1 r hr
    simp only [isPosted] at this
    simp [this]
  have htr : filterNewRepos file (search SearchType.trending) ≠ [] := by
    obtain ⟨r, hr, hpr⟩ := h2
    intro hc
    have hmem : r ∈ filterNewRepos file (search SearchType.trending) := by
      simp only [filterNewRepos]
      refine List.mem_filter.mpr ⟨hr, ?_⟩
      simp only [isPosted] at hpr
      simp [hpr]
    rw [hc] at hmem
    exact List.not_mem_nil r hmem
  have htre : (filterNewRepos file (search SearchType.trending)).isEmpty = false := by
    rw [List.isEmpty_eq_false]
    exact htr
  unfold discoverT
  rw [hnew]
  simp only [List.isEmpty_nil, if_true, htre, Bool.false_eq_true, if_false]
  exact ⟨trivial, htr, by decide⟩

/-- Witness for the tier-fallthrough theorem: the only new-tier item is
already recorded and the trending tier has a fresh item. -/
theorem tier_fallthrough_order_witness :
    ((∀ r ∈ searchC1 SearchType.new,
        isPosted (LedgerFile.ok [toRecord 0 repoA]) r.id = true) ∧
      (∃ r ∈ searchC1 SearchType.trending,
        isPosted (LedgerFile.ok [toRecord 0 repoA]) r.id = false)) ∧
    ((discoverT searchC1 (LedgerFile.ok [toRecord 0 repoA])).1 =
        filterNewRepos (LedgerFile.ok [toRecord 0 repoA])
          (searchC1 SearchType.trending) ∧
      (discoverT searchC1 (LedgerFile.ok [toRecord 0 repoA])).1 ≠ [] ∧
      SearchType.popular ∉ (discoverT searchC1 (LedgerFile.ok [toRecord 0 repoA])).2) :=
  ⟨⟨by decide, by decide⟩,
    tier_fallthrough_order searchC1 (LedgerFile.ok [toRecord 0 repoA])
      (by decide) (by decide)⟩

/-- C4: group target resolution follows the four-source precedence: a
non-empty explicit override wins; otherwise the persisted selection;
otherwise the configured list; otherwise the set fetched from the
transport, which is persisted as the groups.json cache. -/
theorem resolver_precedence (F : List String) :
    resolveGroupIds (envC4 ["G2"] ["G3"] F) (some ["G1"]) =
      Except.ok (["G1"], GroupsFile.missing) ∧
    resolveGroupIds (envC4 ["G2"] ["G3"] F) none =
      Except.ok (["G2"], GroupsFile.missing) ∧
    resolveGroupIds (envC4 [] ["G3"] F) none =
      Except.ok (["G3"], GroupsFile.missing) ∧
    resolveGroupIds (envC4 [] [] F) none =
      Except.ok (F, GroupsFile.ok F) :=
  ⟨rfl, rfl, rfl, rfl⟩

/-- C6: the discovery query for each tier carries the documented
parameters: the new tier filters on creation within the last 7 days with
star threshold max(10, configuredThreshold / 10), the trending tier on
pushes within the last 30 days with the configured threshold, the
popular tier has no recency filter and sorts by stars descending, and
every tier requests min(resultsPerKeyword, 100) items. -/
theorem discovery_query_parameters (today : Nat) (starThreshold : ℚ)
    (resultsPerKeyword : Nat) (keyword : String) :
    (buildQuery today starThreshold resultsPerKeyword none keyword
        SearchType.new).createdAfter = some (today - 7) ∧
    (buildQuery today starThreshold resultsPerKeyword none keyword
        SearchType.new).minStars = max 10 (starThreshold / 10) ∧
    (buildQuery today starThreshold resultsPerKeyword none keyword
        SearchType.trending).pushedAfter = some (today - 30) ∧
    (buildQuery today starThreshold resultsPerKeyword none keyword
        SearchType.trending).minStars = starThreshold ∧
    (buildQuery today starThreshold resultsPerKeyword none keyword
        SearchType.popular).createdAfter = none ∧
    (buildQuery today starThreshold resultsPerKeyword none keyword
        SearchType.popular).pushedAfter = none ∧
    (buildQuery today starThreshold resultsPerKeyword none keyword
        SearchType.popular).sort = "stars" ∧
    (buildQuery today starThreshold resultsPerKeyword none keyword
        SearchType.popular).order = "desc" ∧
    (∀ ty, (buildQuery today starThreshold resultsPerKeyword none keyword
        ty).perPage = min resultsPerKeyword 100) := by
  refine ⟨rfl, rfl, rfl, rfl, rfl, rfl, rfl, rfl, ?_⟩
  intro ty
  cases ty <;> rfl

/-- C10: triggerManualPost returns true whenever the client is set,
whatever the environment makes of the broadcast, because postToAllGroups
catches every internal error at its top level and never throws; its
false-returning catch branch is unreachable. -/
theorem trigger_manual_post_always_true (env : Env)
    (override : Option (List String)) :
    postToAllGroupsCaught env override = Except.ok () ∧
    triggerManualPost true env override = true ∧
    triggerManualPost false env override = false := by
  have hc : postToAllGroupsCaught env override = Except.ok () := by
    unfold postToAllGroupsCaught
    cases postBodyE env override <;> rfl
  refine ⟨hc, ?_, rfl⟩
  unfold triggerManualPost
  rw [hc]
  rfl

/-- The initial scheduler state satisfies the wake-up invariant. -/
theorem schedInv_init (enabled : Bool) :
    SchedInv (schedulerInit enabled, timerInit) := by
  refine ⟨rfl, ?_, ?_⟩
  · intro h
    simp [schedulerInit] at h
  · intro _
    rfl

/-- Every scheduler transition preserves the wake-up invariant. -/
theorem schedInv_step (p : Scheduler × TimerSystem) (e : SchedEvent)
    (h : SchedInv p) : SchedInv (schedStep p e) := by
  obtain ⟨hint, hrun, hidle⟩ := h
  cases e with
  | setClient =>
    exact ⟨hint, fun hr => hrun hr, fun hr => hidle hr⟩
  | start =>
    simp only [schedStep, schedStart]
    by_cases hc : p.1.clientSet = false
    · simp only [hc, if_true]
      exact ⟨hint, hrun, hidle⟩
    · simp only [hc, if_false]
      by_cases he : p.1.autoPostEnabled = false
      · simp only [he, if_true]
        exact ⟨hint, hrun, hidle⟩
      · simp only [he, if_false]
        by_cases hr : p.1.isRunning = true
        · simp only [hr, if_true]
          exact ⟨hint, hrun, hidle⟩
        · simp only [hr, if_false, scheduleNextPost, setTimeoutSys]
          have hr0 : p.1.isRunning = false := by
            revert hr; cases p.1.isRunning <;> simp
          have hp : p.2.pending = [] := hidle hr0
          refine ⟨hint, ?_, ?_⟩
          · intro _
            exact ⟨p.2.nextId, rfl, by rw [hp]; rfl⟩
          · intro hcontra
            simp at hcontra
  | stop =>
    simp only [schedStep, schedStop, hint]
    refine ⟨rfl, ?_, ?_⟩
    · intro hcontra
      simp at hcontra
    · intro _
      cases ht : p.1.timeoutId with
      | none =>
        have hr0 : p.1.isRunning = false := by
          by_contra hcc
          have hr1 : p.1.isRunning = true := by
            revert hcc; cases p.1.isRunning <;> simp
          obtain ⟨t, ht2, -⟩ := hrun hr1
          rw [ht] at ht2
          cases ht2
        simp only [hidle hr0]
      | some i =>
        cases hr1 : p.1.isRunning with
        | false =>
          simp only [clearTimeoutSys, hidle hr1, List.filter_nil]
        | true =>
          obtain ⟨t, ht2, hp⟩ := hrun hr1
          rw [ht] at ht2
          injection ht2 with hti
          simp [clearTimeoutSys, hp, hti]
  | fire =>
    simp only [schedStep, schedFire]
    cases hp : p.2.pending with
    | nil =>
      exact ⟨hint, hrun, hidle⟩
    | cons t rest =>
      have hr1 : p.1.isRunning = true := by
        by_contra hcc
        have hr0 : p.1.isRunning = false := by
          revert hcc; cases p.1.isRunning <;> simp
        rw [hidle hr0] at hp
        cases hp
      obtain ⟨t0, -, hp0⟩ := hrun hr1
      rw [hp0] at hp
      injection hp with hte hre
      simp only [hr1, if_true, scheduleNextPost, setTimeoutSys]
      refine ⟨hint, ?_, ?_⟩
      · intro _
        refine ⟨p.2.nextId, rfl, ?_⟩
        rw [← hre]
        rfl
      · intro hcontra
        simp at hcontra

/-- The wake-up invariant holds after any event sequence. -/
theorem schedInv_foldl (events : List SchedEvent)
    (p : Scheduler × TimerSystem) (h : SchedInv p) :
    SchedInv (events.foldl schedStep p) := by
  induction events generalizing p with
  | nil => exact h
  | cons e rest ih => exact ih (schedStep p e) (schedInv_step p e h)

/-- The invariant bounds the number of pending wake-ups by one. -/
theorem schedInv_pending_le (p : Scheduler × TimerSystem)
    (h : SchedInv p) : p.2.pending.length ≤ 1 := by
  obtain ⟨-, hrun, hidle⟩ := h
  cases hb : p.1.isRunning with
  | false => rw [hidle hb]; simp
  | true =>
    obtain ⟨t, -, hp⟩ := hrun hb
    rw [hp]
    simp

/-- A second start while the scheduler is running changes nothing. -/
theorem schedStart_noop_running (p : Scheduler × TimerSystem)
    (h : p.1.isRunning = true) : schedStep p SchedEvent.start = p := by
  simp only [schedStep, schedStart, h, if_true]
  by_cases hc : p.1.clientSet = false <;>
    by_cases he : p.1.autoPostEnabled = false <;>
      simp [hc, he]

/-- start is a no-op whenever auto-posting is disabled. -/
theorem schedStart_noop_disabled (p : Scheduler × TimerSystem)
    (h : p.1.autoPostEnabled = false) : schedStep p SchedEvent.start = p := by
  simp only [schedStep, schedStart, h, if_true]
  by_cases hc : p.1.clientSet = false <;> simp [hc]

/-- C7: in every reachable scheduler state at most one wake-up is
pending; calling start again while running is a no-op that leaves
exactly one pending wake-up; and start is a no-op when auto-posting is
disabled. -/
theorem scheduler_single_flight :
    (∀ (enabled : Bool) (events : List SchedEvent),
        ((events.foldl schedStep
          (schedulerInit enabled, timerInit)).2.pending.length ≤ 1)) ∧
    (∀ (enabled : Bool) (events : List SchedEvent),
        (events.foldl schedStep
          (schedulerInit enabled, timerInit)).1.isRunning = true →
        (schedStep (events.foldl schedStep
            (schedulerInit enabled, timerInit)) SchedEvent.start =
          events.foldl schedStep (schedulerInit enabled, timerInit) ∧
        (schedStep (events.foldl schedStep
            (schedulerInit enabled, timerInit))
          SchedEvent.start).2.pending.length = 1)) ∧
    (∀ (p : Scheduler × TimerSystem), p.1.autoPostEnabled = false →
        schedStep p SchedEvent.start = p) := by
  refine ⟨?_, ?_, ?_⟩
  · intro enabled events
    exact schedInv_pending_le _ (schedInv_foldl events _ (schedInv_init enabled))
  · intro enabled events hrun
    have hinv := schedInv_foldl events _ (schedInv_init enabled)
    have hnoop := schedStart_noop_running _ hrun
    refine ⟨hnoop, ?_⟩
    rw [hnoop]
    obtain ⟨-, hr, -⟩ := hinv
    obtain ⟨t, -, hp⟩ := hr hrun
    rw [hp]
    rfl
  · intro p h
    exact schedStart_noop_disabled p h

/-- Witness for the single-flight theorem: after setting the client and
starting, a second start leaves the state untouched with one pending
wake-up. -/
theorem scheduler_single_flight_witness :
    (([SchedEvent.setClient, SchedEvent.start, SchedEvent.start].foldl
        schedStep (schedulerInit true, timerInit)).1.isRunning = true) ∧
    (schedStep ([SchedEvent.setClient, SchedEvent.start,
          SchedEvent.start].foldl schedStep (schedulerInit true, timerInit))
        SchedEvent.start =
      [SchedEvent.setClient, SchedEvent.start, SchedEvent.start].foldl
        schedStep (schedulerInit true, timerInit) ∧
      (schedStep ([SchedEvent.setClient, SchedEvent.start,
          SchedEvent.start].foldl schedStep (schedulerInit true, timerInit))
        SchedEvent.start).2.pending.length = 1) :=
  ⟨by decide,
    scheduler_single_flight.2.1 true
      [SchedEvent.setClient, SchedEvent.start, SchedEvent.start] (by decide)⟩

/-- C8: the computed next post time is the configured time-of-day today
when that instant is still strictly in the future and the configured
time-of-day tomorrow otherwise, and it always lies exactly at the
configured hour and minute with zero seconds and milliseconds. -/
theorem next_post_time_correct (postTimeHour postTimeMinute now : Nat)
    (hh : postTimeHour < 24) (hm : postTimeMinute < 60) :
    (now < todayOccurrence postTimeHour postTimeMinute now →
        calculateNextPostTime postTimeHour postTimeMinute now =
          todayOccurrence postTimeHour postTimeMinute now) ∧
    (todayOccurrence postTimeHour postTimeMinute now ≤ now →
        calculateNextPostTime postTimeHour postTimeMinute now =
          todayOccurrence postTimeHour postTimeMinute now + msPerDay) ∧
    calculateNextPostTime postTimeHour postTimeMinute now % msPerDay =
      (postTimeHour * 60 + postTimeMinute) * msPerMinute := by
  have htodlt : (postTimeHour * 60 + postTimeMinute) * msPerMinute < msPerDay := by
    simp only [msPerMinute, msPerDay]
    omega
  have hmod : todayOccurrence postTimeHour postTimeMinute now % msPerDay =
      (postTimeHour * 60 + postTimeMinute) * msPerMinute := by
    unfold todayOccurrence
    rw [Nat.add_comm, Nat.add_mul_mod_self_right]
    exact Nat.mod_eq_of_lt htodlt
  refine ⟨?_, ?_, ?_⟩
  · intro hlt
    unfold calculateNextPostTime
    rw [if_neg]
    omega
  · intro hle
    unfold calculateNextPostTime
    rw [if_pos hle]
  · unfold calculateNextPostTime
    by_cases hle : todayOccurrence postTimeHour postTimeMinute now ≤ now
    · rw [if_pos hle, Nat.add_mod_right]
      exact hmod
    · rw [if_neg hle]
      exact hmod

/-- Witness for the next-post-time theorem at nine in the morning on day
three, five milliseconds after midnight. -/
theorem next_post_time_correct_witness :
    (9 < 24 ∧ 0 < 60) ∧
    ((259200005 < todayOccurrence 9 0 259200005 →
        calculateNextPostTime 9 0 259200005 = todayOccurrence 9 0 259200005) ∧
      (todayOccurrence 9 0 259200005 ≤ 259200005 →
        calculateNextPostTime 9 0 259200005 =
          todayOccurrence 9 0 259200005 + msPerDay) ∧
      calculateNextPostTime 9 0 259200005 % msPerDay =
        (9 * 60 + 0) * msPerMinute) :=
  ⟨⟨by decide, by decide⟩,
    next_post_time_correct 9 0 259200005 (by decide) (by decide)⟩
